import Mathlib

/-!
Verification of the extension-build adapter in `setuptools_golang.py`.

The Python source is shallowly embedded: pure helpers become Lean
functions; the effectful build driver becomes a function from an explicit
context (filesystem contents, ambient environment, the fresh temporary
directory name, and a subprocess-success oracle) to a trace of events plus
a result.  Exceptions are modelled as `Option String` (the raised message).
-/

namespace SetuptoolsGolang

/-- Python `str.startswith` over the character sequence. -/
def strStartsWith (s pat : String) : Bool :=
  pat.data.isPrefixOf s.data

/-- Python `str.endswith` over the character sequence. -/
def strEndsWith (s pat : String) : Bool :=
  pat.data.isSuffixOf s.data

/-- Embedding of Python `posixpath.join` for two components: an absolute
second component discards the first; otherwise the parts are joined with a
single slash (none added after an empty or slash-terminated first part). -/
def osPathJoin (a b : String) : String :=
  if strStartsWith b "/" then b
  else if a = "" || strEndsWith a "/" then a ++ b
  else a ++ "/" ++ b

/-- Embedding of Python `posixpath.dirname`: everything up to the last
slash, with trailing slashes stripped unless the head is all slashes. -/
def osPathDirname (p : String) : String :=
  let cs := p.data
  let tailLen := (cs.reverse.takeWhile (fun c => c ≠ '/')).length
  let head := cs.take (cs.length - tailLen)
  let head :=
    if head.isEmpty || head.all (fun c => c = '/') then head
    else (head.reverse.dropWhile (fun c => c = '/')).reverse
  String.mk head

/-- Python `repr` of a list of strings, as printed into the wrong-source-
count error message (single quotes around each element). -/
def pyReprStrList (xs : List String) : String :=
  "[" ++ String.intercalate ", " (xs.map (fun x => "\x27" ++ x ++ "\x27")) ++ "]"

/-- The native compiler object, as far as this adapter reads it:
`compiler.include_dirs` (from `distutils.ccompiler.CCompiler`). -/
structure Compiler where
  include_dirs : List String
deriving DecidableEq

/-- A `setuptools.Extension` target: name, source paths, preprocessor
macro definitions (name with optional value). -/
structure Extension where
  name : String
  sources : List String
  define_macros : List (String × Option String)
deriving DecidableEq

/-- Embedding of `_get_cflags`: builds the argument list exactly as the
source does (include flags first, then one define flag appended per macro
in iteration order) and space-joins it. -/
def _get_cflags (compiler : Compiler) (macros : List (String × Option String)) :
    String :=
  let args := compiler.include_dirs.map (fun p => "-I" ++ p)
  let args := macros.foldl
    (fun args m =>
      match m with
      | (macro_name, none) => args ++ ["-D" ++ macro_name]
      | (macro_name, some macro_value) =>
          args ++ ["-D" ++ macro_name ++ "=" ++ macro_value])
    args
  String.intercalate " " args

/-- Candidate link flag for a clang-style linker driver. -/
def LFLAG_CLANG : String := "-Wl,-undefined,dynamic_lookup"

/-- Candidate link flag for a GNU-style linker driver. -/
def LFLAG_GCC : String := "-Wl,--unresolved-symbols=ignore-all"

/-- The fixed priority-ordered candidate list `LFLAGS`. -/
def LFLAGS : List String := [LFLAG_CLANG, LFLAG_GCC]

/-- The minimal two-symbol C program written to `test.c` by the prober. -/
def testProgram : String :=
  "int f(int); int main(void) \x7b return f(0); \x7d\n"

/-- The candidate loop of `_get_ldflags`: try each flag in order with a
trial compile of the test program (`probe src flag` tells whether
`cc test.c <flag>` exits successfully); a `CalledProcessError` is caught
and means "try the next one"; when the list is exhausted the `else` arm
returns `LFLAG_GCC` as the fallback. -/
def ldflagsLoop (probe : String → String → Bool) : List String → String
  | [] => LFLAG_GCC
  | lflag :: rest =>
      if probe testProgram lflag then lflag else ldflagsLoop probe rest

/-- Embedding of `_get_ldflags` on a non-Windows platform: probe the
candidates of `LFLAGS` in order. -/
def _get_ldflags (probe : String → String → Bool) : String :=
  ldflagsLoop probe LFLAGS

/-- An environment mapping as an association list; the first binding of a
key is the one in force. -/
abbrev Env := List (String × String)

/-- Embedding of Python `dict(base, **over)`: the overriding bindings
shadow the base ones.  With first-binding-wins association lists this is
`over ++ base`; `dictUpdate_lookup` below states the mapping semantics. -/
def dictUpdate (base over : Env) : Env := over ++ base

/-- Observable side effects of one `build_extension` call. -/
inductive Event where
  | delegate
  | mkdtemp (td : String)
  | makedirs (p : String)
  | copytree (src dst : String) (symlinks : Bool)
  | callProc (cmd : List String) (cwd : String) (over : Env) (spawnEnv : Env)
  | rmtree (p : String)
deriving DecidableEq

/-- Embedding of `_check_call`: the child is spawned with the ambient
process environment updated by the per-call override mapping,
`dict(os.environ, **env)`; the event records both. -/
def _check_call (ambient : Env) (cmd : List String) (cwd : String)
    (env : Env) : Event :=
  Event.callProc cmd cwd env (dictUpdate ambient env)

/-- Everything the driver reads from the outside world, plus the values
the host framework and the operating system supply during the call. -/
structure Ctx where
  root : String
  td : String
  fullpath : String
  ldflags : String
  ambient : Env
  fs : List String
  projDirs : List String
  procOk : List String → String → Bool

/-- Outcome of one `build_extension` call: the event trace, the final
`self.compiler`, the final ambient process environment, whether the base
implementation was invoked and on which compiler value, and the returned
`None` or raised error message. -/
structure BuildResult where
  events : List Event
  compiler : Compiler
  ambient : Env
  baseInvoked : Bool
  baseArg : Option Compiler
  result : Option String
deriving DecidableEq

/-- Value-level `copy.deepcopy` of the compiler object: the copy holds the
same data; mutation of the copy is modelled functionally and so cannot
affect the original. -/
def deepcopy (c : Compiler) : Compiler := c

/-- The wrong-source-count error message,
`Error building extension ... sources must be a single file ...`. -/
def wrongCountMsg (ext : Extension) : String :=
  "Error building extension `" ++ ext.name ++
    "`: sources must be a single file in the `main` package.\nRecieved: " ++
    pyReprStrList ext.sources

/-- The missing-source-file error message. -/
def missingMsg (name mainFile : String) : String :=
  "Error building extension `" ++ name ++ "`: " ++ mainFile ++
    " does not exist"

/-- Message for a subprocess that could not be spawned because its working
directory does not exist (`FileNotFoundError`). -/
def cwdMissingMsg (cwd : String) : String :=
  "FileNotFoundError: No such file or directory: " ++ cwd

/-- Message for a spawned subprocess that exited non-zero
(`CalledProcessError`). -/
def calledProcessMsg (cmd : List String) : String :=
  "CalledProcessError: " ++ String.intercalate " " cmd

/-- The dependency-fetch command `('go', 'get', '-d')`. -/
def cmd_get : List String := ["go", "get", "-d"]

/-- The build command
`('go', 'build', '-buildmode=c-shared', '-o', <artifact path>)`. -/
def cmd_build (fullpath : String) : List String :=
  ["go", "build", "-buildmode=c-shared", "-o", fullpath]

/-- `root_path = os.path.join(tempdir, 'src', root)`: where the project is
copied inside the temporary GOPATH. -/
def root_path (ctx : Ctx) : String :=
  osPathJoin (osPathJoin ctx.td "src") ctx.root

/-- `pkg_path = os.path.join(root_path, main_dir)`: the foreign-module
working directory for the two `go` subprocesses. -/
def pkg_path (ctx : Ctx) (main_file : String) : String :=
  osPathJoin (root_path ctx) (osPathDirname main_file)

/-- The paths that exist once `shutil.copytree('.', root_path,
symlinks=True)` has run: everything that existed before, plus the copy's
root and the copied project directories. -/
def fsAfterCopy (ctx : Ctx) : List String :=
  ctx.fs ++ root_path ctx :: ctx.projDirs.map (fun d => osPathJoin (root_path ctx) d)

/-- The environment override of the dependency-fetch step,
`env = {'GOPATH': tempdir}`. -/
def envGet (ctx : Ctx) : Env := [("GOPATH", ctx.td)]

/-- The environment override of the build step: `env` after
`env.update({'CGO_CFLAGS': ..., 'CGO_LDFLAGS': ...})`. -/
def envBuild (ctx : Ctx) (selfc : Compiler) (ext : Extension) : Env :=
  envGet ctx ++
    [("CGO_CFLAGS", _get_cflags selfc ext.define_macros),
     ("CGO_LDFLAGS", ctx.ldflags)]

/-- The foreign-language branch of `build_extension`, entered after the
single existing source file has been validated: the `_tmpdir` scope is
opened, the project is copied into `<tmpdir>/src/<root>` (the directory
components above it made first), `go get -d` and then `go build` run in
the source file's directory inside the copy, and the temporary directory
is removed on every exit path by the scope's `finally`.  A subprocess can
fail to spawn (its working directory missing from the filesystem) or exit
non-zero (per the `procOk` oracle); either failure propagates after the
cleanup.  (The internal temporary directory and subprocesses of the
`_get_ldflags` probe are modelled separately by `_get_ldflags` and
abstracted here as `ctx.ldflags`.) -/
def driverRun (ctx : Ctx) (selfc : Compiler) (ext : Extension)
    (main_file : String) : BuildResult :=
  let pre := [Event.mkdtemp ctx.td,
              Event.makedirs (osPathDirname (root_path ctx)),
              Event.copytree "." (root_path ctx) true]
  if !(fsAfterCopy ctx).contains (pkg_path ctx main_file) then
    { events := pre ++ [Event.rmtree ctx.td], compiler := selfc,
      ambient := ctx.ambient, baseInvoked := false, baseArg := none,
      result := some (cwdMissingMsg (pkg_path ctx main_file)) }
  else if !ctx.procOk cmd_get (pkg_path ctx main_file) then
    { events := pre ++
        [_check_call ctx.ambient cmd_get (pkg_path ctx main_file) (envGet ctx),
         Event.rmtree ctx.td],
      compiler := selfc, ambient := ctx.ambient, baseInvoked := false,
      baseArg := none, result := some (calledProcessMsg cmd_get) }
  else
    let calls :=
      [_check_call ctx.ambient cmd_get (pkg_path ctx main_file) (envGet ctx),
       _check_call ctx.ambient (cmd_build ctx.fullpath) (pkg_path ctx main_file)
         (envBuild ctx selfc ext)]
    if !ctx.procOk (cmd_build ctx.fullpath) (pkg_path ctx main_file) then
      { events := pre ++ calls ++ [Event.rmtree ctx.td], compiler := selfc,
        ambient := ctx.ambient, baseInvoked := false, baseArg := none,
        result := some (calledProcessMsg (cmd_build ctx.fullpath)) }
    else
      { events := pre ++ calls ++ [Event.rmtree ctx.td], compiler := selfc,
        ambient := ctx.ambient, baseInvoked := false, baseArg := none,
        result := none }

/-- Embedding of the `build_extension` method produced by
`_get_build_extension_method`.  `base` is the base class's
`build_extension`, modelled as acting on the compiler value it is handed
(returning the mutated compiler and the error it raises, if any).  The
no-`.go` branch performs the source's deepcopy-and-swap dance around the
delegated call and restores the original compiler in its `finally`; the
foreign branch validates the source list and hands over to `driverRun`. -/
def build_extension (ctx : Ctx) (base : Compiler → Compiler × Option String)
    (selfc : Compiler) (ext : Extension) : BuildResult :=
  if !ext.sources.any (fun source => strEndsWith source ".go") then
    -- compiler = copy.deepcopy(self.compiler)
    let compiler0 := deepcopy selfc
    -- self.compiler, compiler = compiler, self.compiler
    let selfCompiler := compiler0
    let saved := selfc
    -- try: return base.build_extension(self, ext)  (may mutate
    -- self.compiler to res.1 and may raise res.2)
    let res := base selfCompiler
    -- finally: self.compiler, compiler = compiler, self.compiler
    -- restores the saved original; the mutated copy res.1 is discarded
    { events := [Event.delegate], compiler := saved,
      ambient := ctx.ambient, baseInvoked := true,
      baseArg := some selfCompiler, result := res.2 }
  else
    match ext.sources with
    | [main_file] =>
        if !ctx.fs.contains main_file then
          { events := [], compiler := selfc, ambient := ctx.ambient,
            baseInvoked := false, baseArg := none,
            result := some (missingMsg ext.name main_file) }
        else
          driverRun ctx selfc ext main_file
    | _ =>
        { events := [], compiler := selfc, ambient := ctx.ambient,
          baseInvoked := false, baseArg := none,
          result := some (wrongCountMsg ext) }

/-- A filesystem entry as seen by `shutil.rmtree`: a path plus whether the
entry is writable (read-only entries make a plain unlink fail). -/
structure FSFile where
  path : String
  writable : Bool
deriving DecidableEq

/-- Whether `p` lies inside the tree rooted at `td` (the root included). -/
def underDir (td p : String) : Bool :=
  p = td || strStartsWith p (td ++ "/")

/-- One removal attempt as the operating system performs it: it succeeds
exactly when the entry is writable. -/
def tryUnlink (writable : Bool) : Bool := writable

/-- Removal of one entry as `shutil.rmtree(tempdir, onerror=err)` performs
it: a failing attempt invokes the `err` handler, which chmods the entry
writable (`os.chmod(name, stat.S_IWRITE)`) and repeats the action. -/
def unlinkWithHandler (f : FSFile) : Bool :=
  if tryUnlink f.writable then true
  else tryUnlink ({ f with writable := true } : FSFile).writable

/-- Embedding of `shutil.rmtree(tempdir, onerror=err)`: every entry under
`tempdir` whose (handler-assisted) removal succeeds disappears. -/
def rmtreeOnerror (fs : List FSFile) (td : String) : List FSFile :=
  fs.filter (fun f => !(underDir td f.path && unlinkWithHandler f))

/-- Embedding of the `_tmpdir` context manager: `mkdtemp` creates the
fresh directory `td`, the body runs (returning the filesystem it leaves
behind and either a normal result or a raised message), and the `finally`
removes the tree with the chmod-on-error handler regardless of how the
body exited. -/
def tmpdirScope (td : String) (fs : List FSFile)
    (body : List FSFile → List FSFile × Option String) :
    List FSFile × Option String :=
  let res := body ({ path := td, writable := true } :: fs)
  (rmtreeOnerror res.1 td, res.2)

/-- A value of `dist.cmdclass['build_ext']`: the `setuptools` default, an
arbitrary previously registered class, or a class produced by
`_get_build_ext_cls(base, root)` (whose `build_extension` is the wrapper
around `base`). -/
inductive CmdCls where
  | defaultBuildExt
  | other (tag : String)
  | golangWrap (root : String) (base : CmdCls)
deriving DecidableEq

/-- The `dist` object, as far as `set_build_ext` touches it:
`dist.cmdclass`, a Python dict modelled as an insertion-ordered
association list (here the first binding of a key wins). -/
structure Dist where
  cmdclass : List (String × CmdCls)
deriving DecidableEq

/-- Python dict assignment `m[k] = v`: overwrite the key's binding in
place when the key is present, append a new binding otherwise. -/
def setKey : List (String × CmdCls) → String → CmdCls →
    List (String × CmdCls)
  | [], k, v => [(k, v)]
  | kv :: rest, k, v =>
      if kv.1 = k then (k, v) :: rest else kv :: setKey rest k v

/-- Embedding of `set_build_ext(dist, attr, value)`: `value['root']` is
read first (raising `KeyError` when absent, before `dist` is touched);
then the currently registered `build_ext` class (or the framework default)
becomes the base of the newly registered wrapper class.  Returns the
updated `dist` and the raised message, if any. -/
def set_build_ext (dist : Dist) (_attr : String)
    (value : List (String × String)) : Dist × Option String :=
  match value.lookup "root" with
  | none => (dist, some "KeyError: root")
  | some root =>
      let base := (dist.cmdclass.lookup "build_ext").getD CmdCls.defaultBuildExt
      ({ cmdclass := setKey dist.cmdclass "build_ext"
           (CmdCls.golangWrap root base) }, none)

/-- A concrete context for instantiating the theorems: the project of the
spec's end-to-end scenario, with both subprocesses succeeding. -/
def ctx0 : Ctx :=
  { root := "example.com/pkg"
    td := "/tmp/t0"
    fullpath := "/build/lib/pkg.so"
    ldflags := LFLAG_GCC
    ambient := [("PATH", "/usr/bin"), ("GOPATH", "/home/u/go")]
    fs := ["setup.py", "pkg", "pkg/dir", "pkg/dir/main.go"]
    projDirs := ["pkg", "pkg/dir"]
    procOk := fun _ _ => true }

/-- The extension target of the spec's end-to-end scenario. -/
def ext0 : Extension :=
  { name := "pkg", sources := ["pkg/dir/main.go"], define_macros := [] }

/-- A purely native extension target (no `.go` source). -/
def extC : Extension :=
  { name := "native", sources := ["native.c"], define_macros := [] }

/-- A foreign target with two sources (wrong source count). -/
def extTwo : Extension :=
  { name := "pkg", sources := ["a.go", "b.go"], define_macros := [] }

/-- A base `build_extension` that mutates the compiler it is handed and
returns normally. -/
def base0 : Compiler → Compiler × Option String :=
  fun _ => ({ include_dirs := ["mutated"] }, none)

/-- A base `build_extension` that mutates the compiler and raises. -/
def baseRaise : Compiler → Compiler × Option String :=
  fun _ => ({ include_dirs := ["mutated"] }, some "boom")

/-- The initial `self.compiler` used in the concrete instantiations. -/
def self0 : Compiler := { include_dirs := ["/usr/include/python3.8"] }

/-- A context whose filesystem also holds a `.go` file outside the
project root: `/outside/dir/main.go` exists, and so does its directory,
but neither is part of the project tree (the project entries are the
relative paths). -/
def ctxOut : Ctx :=
  { ctx0 with fs := ctx0.fs ++ ["/outside/dir", "/outside/dir/main.go"] }

/-- A foreign target whose single source is the existing file outside the
project root. -/
def extOut : Extension :=
  { name := "pkg", sources := ["/outside/dir/main.go"], define_macros := [] }

/-- A context whose filesystem holds a `.go` file that escapes the
project root upwards: `../x/main.go` exists, but the corresponding
directory inside the workspace copy does not. -/
def ctxEsc : Ctx :=
  { ctx0 with fs := ctx0.fs ++ ["../x", "../x/main.go"] }

/-- A foreign target whose single source escapes the project root. -/
def extEsc : Extension :=
  { name := "pkg", sources := ["../x/main.go"], define_macros := [] }

/-- A distribution that already registered a wrapped `build_ext`. -/
def dist1 : Dist :=
  { cmdclass := [("build_ext", CmdCls.golangWrap "r0" CmdCls.defaultBuildExt)] }

/-- Removal with the `onerror` handler always succeeds: a writable entry
unlinks at once, a read-only one is chmodded writable and then unlinks. -/
theorem unlinkWithHandler_true (f : FSFile) : unlinkWithHandler f = true := by
  obtain ⟨p, w⟩ := f
  cases w <;> simp [unlinkWithHandler, tryUnlink]

/-- The macro loop of `_get_cflags` appends exactly one define flag per
macro, in iteration order. -/
theorem cflags_foldl_eq (init : List String)
    (ms : List (String × Option String)) :
    ms.foldl
      (fun args m =>
        match m with
        | (macro_name, none) => args ++ ["-D" ++ macro_name]
        | (macro_name, some macro_value) =>
            args ++ ["-D" ++ macro_name ++ "=" ++ macro_value])
      init
    = init ++ ms.map
        (fun m =>
          match m with
          | (macro_name, none) => "-D" ++ macro_name
          | (macro_name, some macro_value) =>
              "-D" ++ macro_name ++ "=" ++ macro_value) := by
  induction ms generalizing init with
  | nil => simp
  | cons m rest ih =>
      obtain ⟨n, ov⟩ := m
      cases ov <;> simp [ih]

/-- The driver branch never invokes the base implementation, never emits
the delegation event, and leaves the ambient environment as it was. -/
theorem driverRun_frame (ctx : Ctx) (selfc : Compiler) (ext : Extension)
    (main_file : String) :
    (driverRun ctx selfc ext main_file).baseInvoked = false
    ∧ (driverRun ctx selfc ext main_file).ambient = ctx.ambient
    ∧ Event.delegate ∉ (driverRun ctx selfc ext main_file).events := by
  unfold driverRun
  split
  · simp
  · split
    · simp [_check_call]
    · split <;> simp [_check_call]

/-- In the no-`.go` branch, `build_extension` reduces to the delegation
record: the base ran on the deep copy, the original compiler is restored,
and the base's outcome is propagated. -/
theorem build_extension_native (ctx : Ctx)
    (base : Compiler → Compiler × Option String) (selfc : Compiler)
    (ext : Extension)
    (h : ext.sources.any (fun source => strEndsWith source ".go") = false) :
    build_extension ctx base selfc ext =
      { events := [Event.delegate], compiler := selfc,
        ambient := ctx.ambient, baseInvoked := true,
        baseArg := some (deepcopy selfc),
        result := (base (deepcopy selfc)).2 } := by
  simp [build_extension, h]

/-- With a single existing `.go` source, `build_extension` reduces to the
driver branch. -/
theorem build_extension_driver (ctx : Ctx)
    (base : Compiler → Compiler × Option String) (selfc : Compiler)
    (ext : Extension) (m : String)
    (hs : ext.sources = [m])
    (hgo : strEndsWith m ".go" = true)
    (hex : ctx.fs.contains m = true) :
    build_extension ctx base selfc ext = driverRun ctx selfc ext m := by
  have hex' : m ∈ ctx.fs := by simpa using hex
  simp [build_extension, hs, hgo, hex']

/-- With a single `.go` source that does not exist on disk,
`build_extension` raises the missing-file error at once. -/
theorem build_extension_missing (ctx : Ctx)
    (base : Compiler → Compiler × Option String) (selfc : Compiler)
    (ext : Extension) (m : String)
    (hs : ext.sources = [m])
    (hgo : strEndsWith m ".go" = true)
    (hex : ctx.fs.contains m = false) :
    build_extension ctx base selfc ext =
      { events := [], compiler := selfc, ambient := ctx.ambient,
        baseInvoked := false, baseArg := none,
        result := some (missingMsg ext.name m) } := by
  have hex' : m ∉ ctx.fs := by simpa using hex
  simp [build_extension, hs, hgo, hex']

/-- With two or more sources of which at least one is a `.go` file,
`build_extension` raises the wrong-source-count error at once. -/
theorem build_extension_wrong_count (ctx : Ctx)
    (base : Compiler → Compiler × Option String) (selfc : Compiler)
    (ext : Extension) (a b : String) (rest : List String)
    (hs : ext.sources = a :: b :: rest)
    (hgo : ext.sources.any (fun source => strEndsWith source ".go") = true) :
    build_extension ctx base selfc ext =
      { events := [], compiler := selfc, ambient := ctx.ambient,
        baseInvoked := false, baseArg := none,
        result := some (wrongCountMsg ext) } := by
  rw [hs] at hgo
  simp [build_extension, hs, hgo]

/-- C4: on a non-Windows platform, `_get_ldflags` tries the candidate
flags in the fixed order — the clang-style flag first, then the GNU-style
flag — and returns the first whose trial compile of the minimal C program
succeeds; when both trials fail it still returns the GNU-style flag as
the fallback, so the probe totally returns a flag and never raises. -/
theorem ldflags_first_success_else_gcc (probe : String → String → Bool) :
    _get_ldflags probe =
      if probe testProgram LFLAG_CLANG then LFLAG_CLANG else LFLAG_GCC := by
  cases h1 : probe testProgram LFLAG_CLANG <;>
    cases h2 : probe testProgram LFLAG_GCC <;>
      simp [_get_ldflags, LFLAGS, ldflagsLoop, h1, h2]

/-- C5: whenever the `_tmpdir` scope exits — its body having returned
normally or raised — no filesystem entry under the temporary directory
remains, read-only entries included (the `onerror` handler makes them
writable and retries the removal), and the body's outcome is propagated
unchanged through the cleanup. -/
theorem tmpdir_removed_after_scope (td : String) (fs : List FSFile)
    (body : List FSFile → List FSFile × Option String) :
    (tmpdirScope td fs body).1.all (fun f => !underDir td f.path) = true
    ∧ (tmpdirScope td fs body).2
        = (body ({ path := td, writable := true } :: fs)).2 := by
  refine ⟨?_, rfl⟩
  have h1 : (tmpdirScope td fs body).1
      = rmtreeOnerror (body ({ path := td, writable := true } :: fs)).1 td := rfl
  rw [h1, rmtreeOnerror, List.all_eq_true]
  intro f hf
  rw [List.mem_filter] at hf
  simpa [unlinkWithHandler_true] using hf.2

/-- C6: `_get_cflags` is a pure function of the include-directory list
and the macro sequence, returning the space-join of one `-I` flag per
include directory in list order followed by one define flag per macro in
iteration order — bare `-D name` for a valueless macro, `-D name=value`
otherwise; in particular include dirs `[a, b]` with macros
`FOO ↦ None, BAR ↦ "1"` yield `-Ia -Ib -DFOO -DBAR=1`. -/
theorem cflags_includes_then_defines (compiler : Compiler)
    (macros : List (String × Option String)) :
    _get_cflags compiler macros =
      String.intercalate " "
        (compiler.include_dirs.map (fun p => "-I" ++ p) ++
          macros.map
            (fun m =>
              match m with
              | (macro_name, none) => "-D" ++ macro_name
              | (macro_name, some macro_value) =>
                  "-D" ++ macro_name ++ "=" ++ macro_value))
    ∧ _get_cflags { include_dirs := ["a", "b"] }
        [("FOO", none), ("BAR", some "1")] = "-Ia -Ib -DFOO -DBAR=1" := by
  refine ⟨?_, by decide⟩
  rw [_get_cflags, cflags_foldl_eq]

/-- C8: for a target with no `.go` source the router delegates to the
base implementation, handing it a deep copy of the compiler; on every
exit path — the base returning normally or raising — the original
compiler object is back in place afterwards, and the base's outcome is
what the call reports. -/
theorem native_roundtrip_restores_compiler (ctx : Ctx)
    (base : Compiler → Compiler × Option String) (selfc : Compiler)
    (ext : Extension)
    (hng : ext.sources.any (fun source => strEndsWith source ".go") = false) :
    (build_extension ctx base selfc ext).compiler = selfc
    ∧ (build_extension ctx base selfc ext).baseArg = some (deepcopy selfc)
    ∧ (build_extension ctx base selfc ext).baseInvoked = true
    ∧ (build_extension ctx base selfc ext).result
        = (base (deepcopy selfc)).2 := by
  rw [build_extension_native ctx base selfc ext hng]
  exact ⟨rfl, rfl, rfl, rfl⟩

/-- C8 witness: with a base that mutates the compiler and raises, the
concrete native target still gets the original compiler back. -/
theorem native_roundtrip_restores_compiler_witness :
    (build_extension ctx0 baseRaise self0 extC).compiler = self0 :=
  (native_roundtrip_restores_compiler ctx0 baseRaise self0 extC (by decide)).1

/-- String concatenation is associative (component lists concatenate). -/
theorem strAppend_assoc (a b c : String) : a ++ b ++ c = a ++ (b ++ c) := by
  apply String.ext
  simp [String.data_append]

/-- C1: the Extension Router invokes the original (base) implementation
exactly when no source path of the target ends with `.go`; when at least
one source does, the call goes to the Build Driver and the base
implementation is never invoked for that target (no delegation event in
the trace). -/
theorem router_delegates_iff_no_go (ctx : Ctx)
    (base : Compiler → Compiler × Option String) (selfc : Compiler)
    (ext : Extension) :
    (build_extension ctx base selfc ext).baseInvoked
        = !ext.sources.any (fun source => strEndsWith source ".go")
    ∧ (Event.delegate ∈ (build_extension ctx base selfc ext).events
        ↔ ext.sources.any (fun source => strEndsWith source ".go") = false) := by
  cases h : ext.sources.any (fun source => strEndsWith source ".go")
  · rw [build_extension_native ctx base selfc ext h]
    simp
  · rcases hs : ext.sources with _ | ⟨m, _ | ⟨b, rest⟩⟩
    · rw [hs] at h
      simp at h
    · have hgo : strEndsWith m ".go" = true := by
        rw [hs] at h
        simpa using h
      by_cases hex : ctx.fs.contains m = true
      · rw [build_extension_driver ctx base selfc ext m hs hgo hex]
        have hfr := driverRun_frame ctx selfc ext m
        exact ⟨hfr.1, by simp [h, hfr.2.2]⟩
      · have hex' : ctx.fs.contains m = false := by simpa using hex
        rw [build_extension_missing ctx base selfc ext m hs hgo hex']
        simp [h]
    · rw [build_extension_wrong_count ctx base selfc ext m b rest hs h]
      simp [h]

/-- C2: a target routed to the Build Driver whose source list does not
have exactly one entry, or whose single source file does not exist on
disk, raises an `OSError` naming the target — with the received source
list included in the wrong-count case — and it does so with an empty
event trace: no temporary directory is created and no subprocess is
spawned. -/
theorem config_error_fails_fast (ctx : Ctx)
    (base : Compiler → Compiler × Option String) (selfc : Compiler)
    (ext : Extension)
    (hgo : ext.sources.any (fun source => strEndsWith source ".go") = true)
    (hbad : ext.sources.length ≠ 1 ∨
        ∃ f, ext.sources = [f] ∧ ctx.fs.contains f = false) :
    (build_extension ctx base selfc ext).events = []
    ∧ (ext.sources.length ≠ 1 →
        (build_extension ctx base selfc ext).result
          = some (wrongCountMsg ext))
    ∧ (∀ f, ext.sources = [f] → ctx.fs.contains f = false →
        (build_extension ctx base selfc ext).result
          = some (missingMsg ext.name f))
    ∧ (∃ u v, (build_extension ctx base selfc ext).result
        = some (u ++ ext.name ++ v))
    ∧ (ext.sources.length ≠ 1 →
        ∃ u, (build_extension ctx base selfc ext).result
          = some (u ++ pyReprStrList ext.sources)) := by
  rcases hs : ext.sources with _ | ⟨m, _ | ⟨b, rest⟩⟩
  · rw [hs] at hgo
    simp at hgo
  · rcases hbad with hlen | ⟨f, hf, hnc⟩
    · rw [hs] at hlen
      simp at hlen
    · have hm : m = f := by
        rw [hs] at hf
        exact (List.cons.injEq _ _ _ _ ▸ hf).1
      subst hm
      have hgo1 : strEndsWith m ".go" = true := by
        rw [hs] at hgo
        simpa using hgo
      rw [build_extension_missing ctx base selfc ext m hs hgo1 hnc]
      refine ⟨rfl, ?_, ?_, ?_, ?_⟩
      · intro hlen
        simp at hlen
      · intro f' hf' _
        obtain rfl : m = f' := by simpa using hf'
        rfl
      · exact ⟨"Error building extension `",
          "`: " ++ (m ++ " does not exist"),
          by simp [missingMsg, strAppend_assoc]⟩
      · intro hlen
        simp at hlen
  · rw [build_extension_wrong_count ctx base selfc ext m b rest hs hgo]
    refine ⟨rfl, fun _ => rfl, ?_, ?_,
      fun _ => ⟨"Error building extension `" ++ ext.name ++
        "`: sources must be a single file in the `main` package.\nRecieved: ",
        by simp only [wrongCountMsg, hs]⟩⟩
    · intro f hf
      simp at hf
    · exact ⟨"Error building extension `",
        "`: sources must be a single file in the `main` package.\nRecieved: "
          ++ pyReprStrList ext.sources,
        by simp [wrongCountMsg, strAppend_assoc]⟩

/-- C2 witness: the two-source target fails with no event emitted. -/
theorem config_error_fails_fast_witness :
    (build_extension ctx0 base0 self0 extTwo).events = [] :=
  (config_error_fails_fast ctx0 base0 self0 extTwo (by decide)
    (Or.inl (by decide))).1

/-- C3: on a valid single-`.go`-source target whose computed working
directory exists in the copied workspace and whose two subprocesses
succeed, the trace is exactly: create the temporary directory, pre-create
the path components above `<tmpdir>/src/<root>`, copy the project there
with symlinks preserved, run `go get -d` in the source file's directory
inside the copy with `GOPATH` pointing at the workspace, run
`go build -buildmode=c-shared -o <host-computed artifact path>` in the
same working directory, and finally remove the temporary directory; the
call returns normally. -/
theorem driver_success_trace (ctx : Ctx)
    (base : Compiler → Compiler × Option String) (selfc : Compiler)
    (ext : Extension) (m : String)
    (hs : ext.sources = [m])
    (hgo : strEndsWith m ".go" = true)
    (hex : ctx.fs.contains m = true)
    (hcwd : (fsAfterCopy ctx).contains (pkg_path ctx m) = true)
    (hget : ctx.procOk cmd_get (pkg_path ctx m) = true)
    (hbuild : ctx.procOk (cmd_build ctx.fullpath) (pkg_path ctx m) = true) :
    (build_extension ctx base selfc ext).events
        = [Event.mkdtemp ctx.td,
           Event.makedirs (osPathDirname (root_path ctx)),
           Event.copytree "." (root_path ctx) true,
           Event.callProc cmd_get (pkg_path ctx m) (envGet ctx)
             (dictUpdate ctx.ambient (envGet ctx)),
           Event.callProc (cmd_build ctx.fullpath) (pkg_path ctx m)
             (envBuild ctx selfc ext)
             (dictUpdate ctx.ambient (envBuild ctx selfc ext)),
           Event.rmtree ctx.td]
    ∧ (build_extension ctx base selfc ext).result = none := by
  rw [build_extension_driver ctx base selfc ext m hs hgo hex]
  have hcwd' : pkg_path ctx m ∈ fsAfterCopy ctx := by simpa using hcwd
  constructor <;>
    simp [driverRun, hcwd', hget, hbuild, _check_call]

/-- C3 witness: the end-to-end scenario target builds with the expected
trace and returns normally. -/
theorem driver_success_trace_witness :
    (build_extension ctx0 base0 self0 ext0).result = none :=
  (driver_success_trace ctx0 base0 self0 ext0 "pkg/dir/main.go" (by decide)
    (by decide) (by decide) (by decide) (by decide) (by decide)).2

/-- Every branch of `build_extension` leaves the ambient process
environment exactly as it found it. -/
theorem build_extension_ambient (ctx : Ctx)
    (base : Compiler → Compiler × Option String) (selfc : Compiler)
    (ext : Extension) :
    (build_extension ctx base selfc ext).ambient = ctx.ambient := by
  unfold build_extension
  split
  · rfl
  · split
    · split
      · rfl
      · exact (driverRun_frame _ _ _ _).2.1
    · rfl

/-- Lookup in `dict(base, **over)` resolves to the override's binding
when present and the base's binding otherwise. -/
theorem dictUpdate_lookup (base over : Env) (k : String) :
    (dictUpdate base over).lookup k
      = match over.lookup k with
        | some v => some v
        | none => base.lookup k := by
  induction over with
  | nil => rfl
  | cons kv rest ih =>
      obtain ⟨k1, v1⟩ := kv
      by_cases h : k = k1
      · subst h
        simp [dictUpdate, List.lookup]
      · have hne : (k == k1) = false := by simp [h]
        simp only [dictUpdate, List.cons_append, List.lookup, hne] at ih ⊢
        exact ih

/-- C7: the ambient process environment after `build_extension` equals
the one before it (nothing mutates `os.environ` in place); on the
successful foreign path the dependency-fetch subprocess runs with the
override mapping exactly `GOPATH=tempdir` and the build subprocess with
`GOPATH`, `CGO_CFLAGS` and `CGO_LDFLAGS`; each spawn environment is a
freshly constructed `dict(os.environ, **env)`, whose bindings resolve to
the override when it defines the key and to the ambient binding
otherwise. -/
theorem subprocess_env_fresh (ctx : Ctx)
    (base : Compiler → Compiler × Option String) (selfc : Compiler)
    (ext : Extension) (m : String) :
    (build_extension ctx base selfc ext).ambient = ctx.ambient
    ∧ (ext.sources = [m] → strEndsWith m ".go" = true →
        ctx.fs.contains m = true →
        (fsAfterCopy ctx).contains (pkg_path ctx m) = true →
        ctx.procOk cmd_get (pkg_path ctx m) = true →
        ctx.procOk (cmd_build ctx.fullpath) (pkg_path ctx m) = true →
        (build_extension ctx base selfc ext).events.get? 3
            = some (Event.callProc cmd_get (pkg_path ctx m) (envGet ctx)
                (dictUpdate ctx.ambient (envGet ctx)))
          ∧ (build_extension ctx base selfc ext).events.get? 4
              = some (Event.callProc (cmd_build ctx.fullpath)
                  (pkg_path ctx m) (envBuild ctx selfc ext)
                  (dictUpdate ctx.ambient (envBuild ctx selfc ext))))
    ∧ (∀ over : Env, ∀ k : String,
        (dictUpdate ctx.ambient over).lookup k
          = match over.lookup k with
            | some v => some v
            | none => ctx.ambient.lookup k) := by
  refine ⟨build_extension_ambient ctx base selfc ext, ?_, ?_⟩
  · intro hs hgo hex hcwd hget hbuild
    rw [build_extension_driver ctx base selfc ext m hs hgo hex]
    have hcwd' : pkg_path ctx m ∈ fsAfterCopy ctx := by simpa using hcwd
    constructor <;>
      simp [driverRun, hcwd', hget, hbuild, _check_call]
  · intro over k
    exact dictUpdate_lookup ctx.ambient over k

/-- C7 witness: in the concrete successful build, the fetch subprocess is
spawned with the fresh `GOPATH`-override environment. -/
theorem subprocess_env_fresh_witness :
    (build_extension ctx0 base0 self0 ext0).events.get? 3
      = some (Event.callProc cmd_get (pkg_path ctx0 "pkg/dir/main.go")
          (envGet ctx0) (dictUpdate ctx0.ambient (envGet ctx0))) :=
  ((subprocess_env_fresh ctx0 base0 self0 ext0 "pkg/dir/main.go").2.1
    (by decide) (by decide) (by decide) (by decide) (by decide)
    (by decide)).1

/-- C9 counterexample: `extOut`'s only source `/outside/dir/main.go` ends
in `.go`, exists on disk, and does not reside under the project root (the
project's entries are relative paths; this source is an absolute path
elsewhere).  The claim says the Build Driver must fail with a build-time
error, yet the call completes normally: the outside directory itself
becomes the working directory of both spawned subprocesses. -/
theorem outside_root_build_proceeds :
    ctxOut.fs.contains "/outside/dir/main.go" = true
    ∧ strStartsWith "/outside/dir/main.go" "/" = true
    ∧ (build_extension ctxOut base0 self0 extOut).result = none
    ∧ (build_extension ctxOut base0 self0 extOut).events.get? 3
        = some (Event.callProc cmd_get "/outside/dir" (envGet ctxOut)
            (dictUpdate ctxOut.ambient (envGet ctxOut))) := by
  refine ⟨by decide, by decide, by decide, by decide⟩

/-- C9 amended: the driver checks existence only, not residence; when the
single source exists but its directory inside the workspace copy does not
(as for a relative path escaping the project root), the subprocess spawn
fails and the call raises a build-time error after the workspace was
created and removed, with no subprocess spawned. -/
theorem missing_workdir_raises (ctx : Ctx)
    (base : Compiler → Compiler × Option String) (selfc : Compiler)
    (ext : Extension) (m : String)
    (hs : ext.sources = [m])
    (hgo : strEndsWith m ".go" = true)
    (hex : ctx.fs.contains m = true)
    (hcwd : (fsAfterCopy ctx).contains (pkg_path ctx m) = false) :
    (build_extension ctx base selfc ext).result
        = some (cwdMissingMsg (pkg_path ctx m))
    ∧ (build_extension ctx base selfc ext).events
        = [Event.mkdtemp ctx.td,
           Event.makedirs (osPathDirname (root_path ctx)),
           Event.copytree "." (root_path ctx) true,
           Event.rmtree ctx.td] := by
  rw [build_extension_driver ctx base selfc ext m hs hgo hex]
  have hcwd' : pkg_path ctx m ∉ fsAfterCopy ctx := by simpa using hcwd
  constructor <;> simp [driverRun, hcwd']

/-- C9 amended witness: the escaping relative source `../x/main.go`
exists, its in-copy directory does not, and the driver raises. -/
theorem missing_workdir_raises_witness :
    (build_extension ctxEsc base0 self0 extEsc).result
      = some (cwdMissingMsg (pkg_path ctxEsc "../x/main.go")) :=
  (missing_workdir_raises ctxEsc base0 self0 extEsc "../x/main.go"
    (by decide) (by decide) (by decide) (by decide)).1

/-- Looking up the assigned key after a Python-style dict assignment
returns the assigned class. -/
theorem lookup_setKey (m : List (String × CmdCls)) (k : String)
    (v : CmdCls) :
    (setKey m k v).lookup k = some v := by
  induction m with
  | nil => simp [setKey, List.lookup]
  | cons kv rest ih =>
      obtain ⟨k1, v1⟩ := kv
      by_cases h : k1 = k
      · subst h
        simp [setKey, List.lookup]
      · have hne : (k == k1) = false := by simp [Ne.symm h]
        simp [setKey, h, List.lookup, hne, ih]

/-- C10: `set_build_ext` reads `value['root']` first — when the key is
missing it raises `KeyError` and returns `dist` untouched, its command
classes unmodified; when present, the previously registered `build_ext`
class (or the framework default when none is registered) becomes the
base class of the newly registered `build_ext`, forming a wrapper
chain. -/
theorem set_build_ext_registration (dist : Dist) (attr : String)
    (value : List (String × String)) :
    (value.lookup "root" = none →
        set_build_ext dist attr value = (dist, some "KeyError: root"))
    ∧ (∀ root, value.lookup "root" = some root →
        (set_build_ext dist attr value).2 = none
        ∧ ((set_build_ext dist attr value).1.cmdclass.lookup "build_ext")
            = some (CmdCls.golangWrap root
                ((dist.cmdclass.lookup "build_ext").getD
                  CmdCls.defaultBuildExt))) := by
  constructor
  · intro h
    simp [set_build_ext, h]
  · intro root h
    simp [set_build_ext, h, lookup_setKey]

/-- C10 witness: registering on a distribution that already carries a
wrapped `build_ext` chains the new wrapper over the old one. -/
theorem set_build_ext_registration_witness :
    (set_build_ext dist1 "build_golang" [("root", "r1")]).1.cmdclass.lookup
        "build_ext"
      = some (CmdCls.golangWrap "r1"
          (CmdCls.golangWrap "r0" CmdCls.defaultBuildExt)) :=
  ((set_build_ext_registration dist1 "build_golang"
      [("root", "r1")]).2 "r1" (by decide)).2

end SetuptoolsGolang
